import Mathlib

/-!
Shallow embedding of the bit-money ledger engine.

The embedding models the PostgreSQL tables of `schema.sql` as lists of rows and
translates the model classes of the repository:

  * `TransactionModel` (transactions controller): create / findById / update /
    delete / getSummary / getMonthlySummary, including the per-operation
    `BEGIN` / `COMMIT` / `ROLLBACK` unit and the inline balance-update blocks.
  * `AccountModel` (accountsController.ts), the controller-embedded
    `CategoryModel` (categoriesController.ts) and `CreditCardModel`
    (creditCardsController.ts / models/CreditCard.ts): findById and delete.
  * the standalone legacy model files (`Part001.CreditCardModel`,
    `Part002.CategoryModel`) whose findById is keyed by id alone and whose
    delete performs no referenced-transaction check.

DECIMAL(10,2) amounts are modelled as exact integers (cents), TIMESTAMP values
as integers with the timestamp order.  Row ids come from SERIAL columns and are
therefore at least 1, so JavaScript truthiness tests on an optional id column
(`if (data.accountId)`) coincide with presence of the value and are modelled by
`Option.isSome`.  Store failures of individual write statements are modelled by
a failure oracle indexed by the position of the write inside the atomic unit;
`ROLLBACK` returns the state the unit started from.
-/

namespace BitMoney

/-- `transaction_type` / `account_type` column, VARCHAR(1): 'E', 'I' or 'T'. -/
inductive TxKind where
  | E
  | I
  | T
deriving DecidableEq, Repr

/-- A row of the `accounts` table: id, user_id, current_value. -/
structure Account where
  id : Nat
  userId : Nat
  currentValue : Int
deriving DecidableEq, Repr

/-- A row of the `categories` table: id, user_id, account_type. -/
structure Category where
  id : Nat
  userId : Nat
  accountType : TxKind
deriving DecidableEq, Repr

/-- A row of the `credit_cards` table (fields the modelled operations touch). -/
structure CreditCard where
  id : Nat
  userId : Nat
  currentValue : Int
deriving DecidableEq, Repr

/-- A row of the `transactions` table. -/
structure Txn where
  id : Nat
  userId : Nat
  transactionType : TxKind
  amount : Int
  transactionDate : Int
  paid : Bool
  comment : Option String
  accountId : Option Nat
  categoryId : Option Nat
  transferAccountId : Option Nat
deriving DecidableEq, Repr

/-- The database state: the four tables and the next SERIAL transaction id. -/
structure Store where
  accounts : List Account
  creditCards : List CreditCard
  categories : List Category
  transactions : List Txn
  nextTxId : Nat
deriving DecidableEq, Repr

/-- `CreateTransactionData` (types.ts). -/
structure CreateTransactionData where
  transactionType : TxKind
  amount : Int
  transactionDate : Option Int := none
  paid : Option Bool := none
  comment : Option String := none
  accountId : Option Nat := none
  categoryId : Option Nat := none
  transferAccountId : Option Nat := none
deriving DecidableEq, Repr

/-- `UpdateTransactionData` (types.ts): every field optional (absent = not updated). -/
structure UpdateTransactionData where
  transactionType : Option TxKind := none
  amount : Option Int := none
  transactionDate : Option Int := none
  paid : Option Bool := none
  comment : Option String := none
  accountId : Option Nat := none
  categoryId : Option Nat := none
  transferAccountId : Option Nat := none
deriving DecidableEq, Repr

/-- The errors thrown by the model layer. -/
inductive LedgerError where
  | accountNotFound
  | transferAccountNotFound
  | categoryNotFound
  | categoryKindMismatch
  | entityInUse
  | storeFailure
deriving DecidableEq, Repr

/-- Outcome of an atomic unit as seen by the caller. -/
inductive OpResult (α : Type) where
  | ok (a : α)
  | err (e : LedgerError)
deriving DecidableEq, Repr

/-- `SELECT id FROM accounts WHERE id = $1 AND user_id = $2` returns a row. -/
def accountExists (st : Store) (id userId : Nat) : Bool :=
  st.accounts.any (fun a => a.id == id && a.userId == userId)

/-- `SELECT id, account_type FROM categories WHERE id = $1 AND user_id = $2`. -/
def findCategory (st : Store) (id userId : Nat) : Option Category :=
  st.categories.find? (fun c => c.id == id && c.userId == userId)

/-- `UPDATE accounts SET current_value = current_value + $1 WHERE id = $2`.
A NULL id matches no row; the statement is not scoped by user. -/
def creditAccount (accs : List Account) (target : Option Nat) (delta : Int) :
    List Account :=
  match target with
  | none => accs
  | some i =>
      accs.map (fun a =>
        if a.id == i then { a with currentValue := a.currentValue + delta } else a)

/-- Failure oracle for the k-th write statement of an atomic unit. -/
def runWrite (fails : Nat → Bool) (k : Nat) : Except LedgerError Unit :=
  if fails k then .error .storeFailure else .ok ()

/-- The oracle under which every write statement succeeds. -/
def noFail : Nat → Bool := fun _ => false

/-- Number of balance-update statements issued for a transaction of this kind. -/
def writeCount : TxKind → Nat
  | .T => 2
  | _ => 1

/-- The balance-application block of `TransactionModel.create` (and the
"apply new account balance changes" block of `update`): expense subtracts from
the account, income adds to it, transfer subtracts from the source and adds to
the destination.  `k` is the index of its first write statement. -/
def balanceApply (fails : Nat → Bool) (k : Nat) (typ : TxKind) (amount : Int)
    (accountId transferAccountId : Option Nat) (accs : List Account) :
    Except LedgerError (List Account) :=
  match typ with
  | .E => do
      runWrite fails k
      pure (creditAccount accs accountId (-amount))
  | .I => do
      runWrite fails k
      pure (creditAccount accs accountId amount)
  | .T => do
      runWrite fails k
      let accs1 := creditAccount accs accountId (-amount)
      runWrite fails (k + 1)
      pure (creditAccount accs1 transferAccountId amount)

/-- The balance-reversal block of `TransactionModel.update` and
`TransactionModel.delete`: the same block with every sign flipped. -/
def balanceReverse (fails : Nat → Bool) (k : Nat) (typ : TxKind) (amount : Int)
    (accountId transferAccountId : Option Nat) (accs : List Account) :
    Except LedgerError (List Account) :=
  match typ with
  | .E => do
      runWrite fails k
      pure (creditAccount accs accountId amount)
  | .I => do
      runWrite fails k
      pure (creditAccount accs accountId (-amount))
  | .T => do
      runWrite fails k
      let accs1 := creditAccount accs accountId amount
      runWrite fails (k + 1)
      pure (creditAccount accs1 transferAccountId (-amount))

/-- The catch-all `try { BEGIN ... COMMIT } catch { ROLLBACK }` wrapper: a
failing body leaves the committed state exactly as it was. -/
def atomically {α : Type} (st : Store) (body : Except LedgerError (α × Store)) :
    OpResult α × Store :=
  match body with
  | .ok (a, s) => (.ok a, s)
  | .error e => (.err e, st)

namespace TransactionModel

/-- Ownership check of an optional account reference (`if (data.accountId) { ... }`). -/
def checkAccountRef (st : Store) (userId : Nat) (r : Option Nat) (e : LedgerError) :
    Except LedgerError Unit :=
  match r with
  | none => .ok ()
  | some a => if accountExists st a userId then .ok () else .error e

/-- Ownership and kind check of an optional category reference against the
transaction type it must match. -/
def checkCategoryRef (st : Store) (userId : Nat) (r : Option Nat) (typ : TxKind) :
    Except LedgerError Unit :=
  match r with
  | none => .ok ()
  | some c =>
      match findCategory st c userId with
      | none => .error .categoryNotFound
      | some cat =>
          if cat.accountType = typ then .ok () else .error .categoryKindMismatch

/-- The transaction row built from the INSERT values of `create`
(`transactionDate` defaults to `new Date()`, `paid` to false). -/
def mkTxn (userId : Nat) (d : CreateTransactionData) (now : Int) (nextId : Nat) : Txn :=
  { id := nextId
    userId := userId
    transactionType := d.transactionType
    amount := d.amount
    transactionDate := d.transactionDate.getD now
    paid := d.paid.getD false
    comment := d.comment
    accountId := d.accountId
    categoryId := d.categoryId
    transferAccountId := d.transferAccountId }

/-- Body of `TransactionModel.create`: validations, INSERT (write 0), balance
updates (writes from 1). -/
def createGo (fails : Nat → Bool) (userId : Nat) (d : CreateTransactionData)
    (now : Int) (st : Store) : Except LedgerError (Txn × Store) := do
  checkAccountRef st userId d.accountId .accountNotFound
  checkAccountRef st userId d.transferAccountId .transferAccountNotFound
  checkCategoryRef st userId d.categoryId d.transactionType
  runWrite fails 0
  let accs ← balanceApply fails 1 d.transactionType d.amount d.accountId
    d.transferAccountId st.accounts
  pure (mkTxn userId d now st.nextTxId, { st with
    accounts := accs
    transactions := st.transactions ++ [mkTxn userId d now st.nextTxId]
    nextTxId := st.nextTxId + 1 })

/-- `TransactionModel.create`, one atomic unit.  `now` models `new Date()`. -/
def create (fails : Nat → Bool) (userId : Nat) (d : CreateTransactionData)
    (now : Int) (st : Store) : OpResult Txn × Store :=
  atomically st (createGo fails userId d now st)

/-- `SELECT ... FROM transactions WHERE t.id = $1 AND t.user_id = $2`. -/
def findById (id userId : Nat) (st : Store) : Option Txn :=
  st.transactions.find? (fun t => t.id == id && t.userId == userId)

/-- The merged row produced by the conditional `SET` clauses of the UPDATE
statement: supplied fields override, absent fields keep the stored value. -/
def mergeTxn (t : Txn) (u : UpdateTransactionData) : Txn :=
  { t with
    transactionType := u.transactionType.getD t.transactionType
    amount := u.amount.getD t.amount
    transactionDate := u.transactionDate.getD t.transactionDate
    paid := u.paid.getD t.paid
    comment := match u.comment with | some c => some c | none => t.comment
    accountId := match u.accountId with | some a => some a | none => t.accountId
    categoryId := match u.categoryId with | some c => some c | none => t.categoryId
    transferAccountId :=
      match u.transferAccountId with | some a => some a | none => t.transferAccountId }

/-- `updateFields.length === 0`: no updatable field was supplied. -/
def emptyUpdate (u : UpdateTransactionData) : Bool :=
  u.transactionType.isNone && u.amount.isNone && u.transactionDate.isNone &&
  u.paid.isNone && u.comment.isNone && u.accountId.isNone &&
  u.categoryId.isNone && u.transferAccountId.isNone

/-- Body of `TransactionModel.update`: load, validate the supplied references,
reverse the old balance effects (writes from 0), update the row, apply the new
balance effects. -/
def updateGo (fails : Nat → Bool) (id userId : Nat) (u : UpdateTransactionData)
    (st : Store) : Except LedgerError (Option Txn × Store) := do
  match findById id userId st with
  | none => pure (none, st)
  | some t => do
      checkAccountRef st userId u.accountId .accountNotFound
      checkAccountRef st userId u.transferAccountId .transferAccountNotFound
      checkCategoryRef st userId u.categoryId (u.transactionType.getD t.transactionType)
      let accs1 ← balanceReverse fails 0 t.transactionType t.amount t.accountId
        t.transferAccountId st.accounts
      if emptyUpdate u then
        pure (findById id userId st, st)
      else do
        runWrite fails (writeCount t.transactionType)
        let accs2 ← balanceApply fails (writeCount t.transactionType + 1)
          (mergeTxn t u).transactionType (mergeTxn t u).amount
          (mergeTxn t u).accountId (mergeTxn t u).transferAccountId accs1
        pure (some (mergeTxn t u), { st with
          accounts := accs2
          transactions := st.transactions.map (fun t' =>
            if t'.id == id && t'.userId == userId then mergeTxn t u else t') })

/-- `TransactionModel.update`, one atomic unit. -/
def update (fails : Nat → Bool) (id userId : Nat) (u : UpdateTransactionData)
    (st : Store) : OpResult (Option Txn) × Store :=
  atomically st (updateGo fails id userId u st)

/-- Body of `TransactionModel.delete`: load, reverse the balance effects
(writes from 0), delete the row. -/
def deleteGo (fails : Nat → Bool) (id userId : Nat) (st : Store) :
    Except LedgerError (Bool × Store) := do
  match findById id userId st with
  | none => pure (false, st)
  | some t => do
      let accs1 ← balanceReverse fails 0 t.transactionType t.amount t.accountId
        t.transferAccountId st.accounts
      runWrite fails (writeCount t.transactionType)
      pure (decide (0 < st.transactions.countP (fun t' =>
          t'.id == id && t'.userId == userId)),
        { st with
          accounts := accs1
          transactions := st.transactions.filter (fun t' =>
            !(t'.id == id && t'.userId == userId)) })

/-- `TransactionModel.delete`, one atomic unit. -/
def delete (fails : Nat → Bool) (id userId : Nat) (st : Store) :
    OpResult Bool × Store :=
  atomically st (deleteGo fails id userId st)

/-- Aggregated totals returned by `getSummary`. -/
structure TransactionSummary where
  totalIncome : Int
  totalExpenses : Int
  totalTransfers : Int
  netAmount : Int
  transactionCount : Nat
deriving DecidableEq, Repr

/-- The rows selected by `getSummary`: the user's transactions, restricted by
the optional `transaction_date >= $start` and `transaction_date <= $end`. -/
def summaryRows (userId : Nat) (startDate endDate : Option Int) (st : Store) :
    List Txn :=
  st.transactions.filter (fun t =>
    t.userId == userId
    && (match startDate with
        | some s => decide (s ≤ t.transactionDate)
        | none => true)
    && (match endDate with
        | some e => decide (t.transactionDate ≤ e)
        | none => true))

/-- One `GROUP BY transaction_type` result row, `(SUM(amount), COUNT(*))`,
present only when at least one transaction of the kind was selected. -/
def groupRow (rows : List Txn) (k : TxKind) : Option (Int × Nat) :=
  let g := rows.filter (fun t => t.transactionType == k)
  if g.isEmpty then none else some ((g.map Txn.amount).sum, g.length)

/-- The `parseFloat(row.total_amount) || 0` accumulation: the total assigned
from an optional group row, 0 when the kind produced no row. -/
def sumOfRow (r : Option (Int × Nat)) : Int :=
  match r with
  | some p => p.1
  | none => 0

/-- The `parseInt(row.count) || 0` accumulation for an optional group row. -/
def countOfRow (r : Option (Int × Nat)) : Nat :=
  match r with
  | some p => p.2
  | none => 0

/-- `TransactionModel.getSummary`: totals per kind start at 0 and are assigned
from the group rows; `netAmount = totalIncome - totalExpenses`, and
`transactionCount` accumulates every group's count. -/
def getSummary (userId : Nat) (startDate endDate : Option Int) (st : Store) :
    TransactionSummary :=
  let rows := summaryRows userId startDate endDate st
  { totalIncome := sumOfRow (groupRow rows .I)
    totalExpenses := sumOfRow (groupRow rows .E)
    totalTransfers := sumOfRow (groupRow rows .T)
    netAmount := sumOfRow (groupRow rows .I) - sumOfRow (groupRow rows .E)
    transactionCount := countOfRow (groupRow rows .E) + countOfRow (groupRow rows .I)
      + countOfRow (groupRow rows .T) }

end TransactionModel

/-- Gregorian leap-year rule, as implemented by the JavaScript Date object. -/
def isLeap (y : Nat) : Bool := (y % 4 == 0 && y % 100 != 0) || y % 400 == 0

/-- Days in the 1-based month `m` of year `y`; this is the day-of-month that
`new Date(y, m, 0)` normalizes to. -/
def daysInMonth (y m : Nat) : Nat :=
  if m == 2 then (if isLeap y then 29 else 28)
  else if m == 4 || m == 6 || m == 9 || m == 11 then 30
  else 31

/-- Timestamp of midnight at the start of the calendar date `y-m-d`, in the
order-preserving encoding used for `transaction_date` values. -/
def dateVal (y m d : Nat) : Int := ((y * 10000 + m * 100 + d : Nat) : Int)

namespace TransactionModel

/-- `TransactionModel.getMonthlySummary`: `startDate = new Date(year, month - 1, 1)`
is midnight of the first day of the 1-based `month`, and
`endDate = new Date(year, month, 0)` is midnight of its last day. -/
def getMonthlySummary (userId : Nat) (year month : Nat) (st : Store) :
    TransactionSummary :=
  getSummary userId (some (dateVal year month 1))
    (some (dateVal year month (daysInMonth year month))) st

end TransactionModel

namespace AccountModel

/-- accountsController.ts `AccountModel.findById`:
`SELECT ... FROM accounts WHERE id = $1 AND user_id = $2`. -/
def findById (id userId : Nat) (st : Store) : Option Account :=
  st.accounts.find? (fun a => a.id == id && a.userId == userId)

/-- accountsController.ts `AccountModel.delete`: count the transactions with
`account_id = $1 OR transfer_account_id = $1` (not scoped by user); if any
exist throw, otherwise `DELETE FROM accounts WHERE id = $1 AND user_id = $2`
and report whether a row was removed.  A throw happens before the DELETE, so
the store is unchanged on error. -/
def delete (id userId : Nat) (st : Store) : OpResult Bool × Store :=
  let cnt := st.transactions.countP (fun t =>
    t.accountId == some id || t.transferAccountId == some id)
  if 0 < cnt then (.err .entityInUse, st)
  else
    let remaining := st.accounts.filter (fun a => !(a.id == id && a.userId == userId))
    (.ok (decide (remaining.length < st.accounts.length)),
      { st with accounts := remaining })

end AccountModel

namespace CategoryModel

/-- categoriesController.ts `CategoryModel.findById`:
`SELECT ... FROM categories WHERE id = $1 AND user_id = $2`. -/
def findById (id userId : Nat) (st : Store) : Option Category :=
  st.categories.find? (fun c => c.id == id && c.userId == userId)

/-- categoriesController.ts `CategoryModel.delete`: count the transactions with
`category_id = $1 AND user_id = $2`; if any exist throw, otherwise
`DELETE FROM categories WHERE id = $1 AND user_id = $2`. -/
def delete (id userId : Nat) (st : Store) : OpResult Bool × Store :=
  let cnt := st.transactions.countP (fun t =>
    t.categoryId == some id && t.userId == userId)
  if 0 < cnt then (.err .entityInUse, st)
  else
    let remaining := st.categories.filter (fun c => !(c.id == id && c.userId == userId))
    (.ok (decide (remaining.length < st.categories.length)),
      { st with categories := remaining })

end CategoryModel

namespace CreditCardModel

/-- creditCardsController.ts / models/CreditCard.ts `CreditCardModel.findById`:
`SELECT ... FROM credit_cards WHERE id = $1 AND user_id = $2`. -/
def findById (id userId : Nat) (st : Store) : Option CreditCard :=
  st.creditCards.find? (fun c => c.id == id && c.userId == userId)

/-- creditCardsController.ts / models/CreditCard.ts `CreditCardModel.delete`:
count the transactions with `account_id = $1 OR transfer_account_id = $1`; if
any exist throw, otherwise `DELETE FROM credit_cards WHERE id = $1 AND user_id = $2`. -/
def delete (id userId : Nat) (st : Store) : OpResult Bool × Store :=
  let cnt := st.transactions.countP (fun t =>
    t.accountId == some id || t.transferAccountId == some id)
  if 0 < cnt then (.err .entityInUse, st)
  else
    let remaining := st.creditCards.filter (fun c => !(c.id == id && c.userId == userId))
    (.ok (decide (remaining.length < st.creditCards.length)),
      { st with creditCards := remaining })

end CreditCardModel

namespace Part001

/- The standalone legacy credit-card model file (unnamed part_001). -/
namespace CreditCardModel

/-- part_001 `CreditCardModel.findById`:
`SELECT ... FROM credit_cards WHERE id = $1` - keyed by id alone, with no
user_id filter. -/
def findById (cardId : Nat) (st : Store) : Option CreditCard :=
  st.creditCards.find? (fun c => c.id == cardId)

/-- part_001 `CreditCardModel.delete`:
`DELETE FROM credit_cards WHERE id = $1 AND user_id = $2` with no
referenced-transaction check of any kind. -/
def delete (cardId userId : Nat) (st : Store) : Store :=
  { st with creditCards := st.creditCards.filter (fun c =>
      !(c.id == cardId && c.userId == userId)) }

end CreditCardModel

end Part001

namespace Part002

/- The standalone legacy category model file (unnamed part_002). -/
namespace CategoryModel

/-- part_002 `CategoryModel.findById`:
`SELECT ... FROM categories WHERE id = $1` - keyed by id alone, with no
userId filter. -/
def findById (categoryId : Nat) (st : Store) : Option Category :=
  st.categories.find? (fun c => c.id == categoryId)

/-- part_002 `CategoryModel.delete`:
`DELETE FROM categories WHERE id = $1 AND userId = $2` with no
referenced-transaction check. -/
def delete (categoryId userId : Nat) (st : Store) : Store :=
  { st with categories := st.categories.filter (fun c =>
      !(c.id == categoryId && c.userId == userId)) }

end CategoryModel

end Part002

/-- Modelled from the spec: the Balance Effect Calculator of section 4.2, the
pure function `effectsOf(transaction)` returning the list of signed balance
deltas per affected account.  The repository inlines these deltas in the
balance-update blocks; this definition is the refinement target they are
compared against.  A NULL account reference contributes no delta, matching the
no-op `UPDATE ... WHERE id = NULL`. -/
def effectsOf (t : Txn) : List (Nat × Int) :=
  match t.transactionType with
  | .E => match t.accountId with | some a => [(a, -t.amount)] | none => []
  | .I => match t.accountId with | some a => [(a, t.amount)] | none => []
  | .T =>
      (match t.accountId with | some a => [(a, -t.amount)] | none => [])
      ++ (match t.transferAccountId with | some b => [(b, t.amount)] | none => [])

/-- Negation of an effect list (the reversal of section 4.3). -/
def negEffects (es : List (Nat × Int)) : List (Nat × Int) :=
  es.map (fun e => (e.1, -e.2))

/-- Applying a list of effects to the accounts table, one atomic increment per
delta. -/
def applyEffects (es : List (Nat × Int)) (accs : List Account) : List Account :=
  es.foldl (fun acc e => creditAccount acc (some e.1) e.2) accs

/-- The net signed delta an effect list attributes to account `aid`. -/
def effectSumOn (aid : Nat) (es : List (Nat × Int)) : Int :=
  ((es.filter (fun e => e.1 == aid)).map (fun e => e.2)).sum

/-- The net signed effect of a list of transactions on account `aid`. -/
def txnsEffectOn (aid : Nat) (ts : List Txn) : Int :=
  (ts.map (fun t => effectSumOn aid (effectsOf t))).sum

/-- Balance conservation: each stored account's `current_value` equals the sum
of the signed effects of the stored transactions on it. -/
def BalanceInv (st : Store) : Prop :=
  ∀ a ∈ st.accounts, a.currentValue = txnsEffectOn a.id st.transactions

/-- Well-formedness guaranteed by the schema: the transaction primary key is
unique, and every stored id is below the next SERIAL value. -/
def StoreWF (st : Store) : Prop :=
  (st.transactions.map Txn.id).Nodup ∧ ∀ t ∈ st.transactions, t.id < st.nextTxId

/-- One request against the transaction lifecycle manager. -/
inductive Op where
  | create (userId : Nat) (d : CreateTransactionData) (now : Int)
  | update (id userId : Nat) (u : UpdateTransactionData)
  | delete (id userId : Nat)

/-- The store after serving one request (with every store write succeeding);
a failed unit leaves the store unchanged. -/
def stepOp (st : Store) (op : Op) : Store :=
  match op with
  | .create u d now => (TransactionModel.create noFail u d now st).2
  | .update i u upd => (TransactionModel.update noFail i u upd st).2
  | .delete i u => (TransactionModel.delete noFail i u st).2

/-- The store after serving a finite sequence of requests. -/
def runOps (st : Store) (ops : List Op) : Store := ops.foldl stepOp st

/-- The oracle under which every write statement fails. -/
def allFail : Nat → Bool := fun _ => true

/-- A concrete store: user 1 with two empty accounts, an income and an expense
category, one credit card, and no transactions. -/
def wStore : Store where
  accounts := [{ id := 1, userId := 1, currentValue := 0 },
    { id := 2, userId := 1, currentValue := 0 }]
  creditCards := [{ id := 1, userId := 1, currentValue := 0 }]
  categories := [{ id := 1, userId := 1, accountType := .I },
    { id := 2, userId := 1, accountType := .E }]
  transactions := []
  nextTxId := 1

/-- A create request: income of 50.00 on account 1 with category 1. -/
def wIncomeCreate : CreateTransactionData where
  transactionType := .I
  amount := 5000
  accountId := some 1
  categoryId := some 1

/-- The create-update-delete scenario of the spec: create an income of 50.00 on
account 1, update its amount to 30.00, then delete it. -/
def wOps : List Op :=
  [Op.create 1 wIncomeCreate 10,
    Op.update 1 1 { amount := some 3000 },
    Op.delete 1 1]

/-- A concrete transfer transaction image: 40.00 from account 1 to account 2. -/
def wTxnT : Txn where
  id := 7
  userId := 1
  transactionType := .T
  amount := 4000
  transactionDate := 10
  paid := false
  comment := none
  accountId := some 1
  categoryId := none
  transferAccountId := some 2

/-- A stored Expense transaction of 10.00 on account 1 of user 1. -/
def c3Txn : Txn where
  id := 1
  userId := 1
  transactionType := .E
  amount := 1000
  transactionDate := 10
  paid := false
  comment := none
  accountId := some 1
  categoryId := some 2
  transferAccountId := none

/-- A store holding `c3Txn`, with account 1 at the balance the expense left. -/
def c3Store : Store where
  accounts := [{ id := 1, userId := 1, currentValue := -1000 }]
  creditCards := []
  categories := [{ id := 2, userId := 1, accountType := .E }]
  transactions := [c3Txn]
  nextTxId := 2

/-- A stored Transfer transaction of 5.00 from account 1 to account 2. -/
def c4Txn : Txn where
  id := 1
  userId := 1
  transactionType := .T
  amount := 500
  transactionDate := 10
  paid := false
  comment := none
  accountId := some 1
  categoryId := none
  transferAccountId := some 2

/-- A store holding `c4Txn` with both accounts at the balances it produced. -/
def c4Store : Store where
  accounts := [{ id := 1, userId := 1, currentValue := -500 },
    { id := 2, userId := 1, currentValue := 500 }]
  creditCards := []
  categories := []
  transactions := [c4Txn]
  nextTxId := 2

/-- A stored Expense transaction of 1.00 whose account reference is id 1. -/
def c5Txn : Txn where
  id := 1
  userId := 1
  transactionType := .E
  amount := 100
  transactionDate := 10
  paid := false
  comment := none
  accountId := some 1
  categoryId := some 9
  transferAccountId := none

/-- A store whose credit card 1 is referenced by a stored expense transaction. -/
def c5Store : Store where
  accounts := []
  creditCards := [{ id := 1, userId := 1, currentValue := -100 }]
  categories := [{ id := 9, userId := 1, accountType := .E }]
  transactions := [c5Txn]
  nextTxId := 2

/-- A store whose category 1 and credit card 1 belong to user 2. -/
def c6Store : Store where
  accounts := []
  creditCards := [{ id := 1, userId := 2, currentValue := 0 }]
  categories := [{ id := 1, userId := 2, accountType := .E }]
  transactions := []
  nextTxId := 1

/-- A create request whose account reference does not exist for the user. -/
def badAccountCreate : CreateTransactionData where
  transactionType := .I
  amount := 500
  accountId := some 99
  categoryId := some 1

/-! ### Lemmas about effect lists and the balance-update blocks -/

theorem creditAccount_none (accs : List Account) (d : Int) :
    creditAccount accs none d = accs := rfl

theorem creditAccount_some (accs : List Account) (i : Nat) (d : Int) :
    creditAccount accs (some i) d =
      accs.map (fun a =>
        if a.id == i then { a with currentValue := a.currentValue + d } else a) := rfl

theorem effectSumOn_nil (aid : Nat) : effectSumOn aid [] = 0 := rfl

theorem effectSumOn_cons (aid : Nat) (e : Nat × Int) (es : List (Nat × Int)) :
    effectSumOn aid (e :: es) = (if e.1 == aid then e.2 else 0) + effectSumOn aid es := by
  cases h : (e.1 == aid) <;> simp [effectSumOn, List.filter_cons, h]

theorem effectSumOn_negEffects (aid : Nat) (es : List (Nat × Int)) :
    effectSumOn aid (negEffects es) = -effectSumOn aid es := by
  induction es with
  | nil => rfl
  | cons e es ih =>
      rw [show negEffects (e :: es) = (e.1, -e.2) :: negEffects es from rfl,
        effectSumOn_cons, effectSumOn_cons, ih]
      cases h : (e.1 == aid)
      · simp [h]
      · simp [h, neg_add, add_comm]

theorem applyEffects_nil (accs : List Account) : applyEffects [] accs = accs := rfl

theorem applyEffects_cons (e : Nat × Int) (es : List (Nat × Int)) (accs : List Account) :
    applyEffects (e :: es) accs = applyEffects es (creditAccount accs (some e.1) e.2) := rfl

theorem applyEffects_append (l1 l2 : List (Nat × Int)) (accs : List Account) :
    applyEffects (l1 ++ l2) accs = applyEffects l2 (applyEffects l1 accs) :=
  List.foldl_append _ _ _ _

theorem applyEffects_eq_map (es : List (Nat × Int)) (accs : List Account) :
    applyEffects es accs =
      accs.map (fun a => { a with currentValue := a.currentValue + effectSumOn a.id es }) := by
  induction es generalizing accs with
  | nil => simp [applyEffects, effectSumOn]
  | cons e es ih =>
      rw [applyEffects_cons, ih, creditAccount_some, List.map_map]
      apply List.map_congr_left
      intro a _
      simp only [Function.comp_apply, effectSumOn_cons]
      by_cases h : a.id = e.1
      · have h1 : (a.id == e.1) = true := by simp [h]
        have h2 : (e.1 == a.id) = true := by simp [h.symm]
        simp [h1, h2, add_assoc]
      · have h1 : (a.id == e.1) = false := by simp [h]
        have h2 : (e.1 == a.id) = false := by
          simp only [beq_eq_false_iff_ne, ne_eq]
          exact fun hx => h hx.symm
        simp [h1, h2]

theorem runWrite_cases (fails : Nat → Bool) (k : Nat) :
    runWrite fails k = .ok () ∨ runWrite fails k = .error .storeFailure := by
  unfold runWrite
  split
  · exact Or.inr rfl
  · exact Or.inl rfl

theorem runWrite_noFail (k : Nat) : runWrite noFail k = .ok () := rfl

theorem bindOk {α β : Type} (a : α) (f : α → Except LedgerError β) :
    (Except.ok a >>= f) = f a := rfl

theorem bindError {α β : Type} (e : LedgerError) (f : α → Except LedgerError β) :
    ((Except.error e : Except LedgerError α) >>= f) = Except.error e := rfl

theorem pureEqOk {α : Type} (a : α) : (pure a : Except LedgerError α) = .ok a := rfl

theorem balanceApply_noFail (k : Nat) (t : Txn) (accs : List Account) :
    balanceApply noFail k t.transactionType t.amount t.accountId t.transferAccountId accs
      = .ok (applyEffects (effectsOf t) accs) := by
  cases htyp : t.transactionType <;>
    cases haid : t.accountId <;>
    cases htaid : t.transferAccountId <;>
      simp [balanceApply, runWrite, noFail, effectsOf, htyp, haid, htaid,
        applyEffects, creditAccount, bindOk, pureEqOk]

theorem balanceReverse_noFail (k : Nat) (t : Txn) (accs : List Account) :
    balanceReverse noFail k t.transactionType t.amount t.accountId t.transferAccountId accs
      = .ok (applyEffects (negEffects (effectsOf t)) accs) := by
  cases htyp : t.transactionType <;>
    cases haid : t.accountId <;>
    cases htaid : t.transferAccountId <;>
      simp [balanceReverse, runWrite, noFail, effectsOf, negEffects, htyp, haid, htaid,
        applyEffects, creditAccount, bindOk, pureEqOk]

theorem balanceApply_shape (fails : Nat → Bool) (k : Nat) (typ : TxKind) (amt : Int)
    (aid taid : Option Nat) (accs : List Account) :
    balanceApply fails k typ amt aid taid accs = .error .storeFailure ∨
    balanceApply fails k typ amt aid taid accs = balanceApply noFail k typ amt aid taid accs := by
  cases typ
  case E =>
    rcases runWrite_cases fails k with hw | hw
    · right; simp [balanceApply, hw, runWrite_noFail, bindOk]
    · left; simp [balanceApply, hw, bindError]
  case I =>
    rcases runWrite_cases fails k with hw | hw
    · right; simp [balanceApply, hw, runWrite_noFail, bindOk]
    · left; simp [balanceApply, hw, bindError]
  case T =>
    rcases runWrite_cases fails k with hw | hw
    · rcases runWrite_cases fails (k + 1) with hw2 | hw2
      · right; simp [balanceApply, hw, hw2, runWrite_noFail, bindOk]
      · left; simp [balanceApply, hw, hw2, bindOk, bindError]
    · left; simp [balanceApply, hw, bindError]

theorem balanceReverse_shape (fails : Nat → Bool) (k : Nat) (typ : TxKind) (amt : Int)
    (aid taid : Option Nat) (accs : List Account) :
    balanceReverse fails k typ amt aid taid accs = .error .storeFailure ∨
    balanceReverse fails k typ amt aid taid accs = balanceReverse noFail k typ amt aid taid accs := by
  cases typ
  case E =>
    rcases runWrite_cases fails k with hw | hw
    · right; simp [balanceReverse, hw, runWrite_noFail, bindOk]
    · left; simp [balanceReverse, hw, bindError]
  case I =>
    rcases runWrite_cases fails k with hw | hw
    · right; simp [balanceReverse, hw, runWrite_noFail, bindOk]
    · left; simp [balanceReverse, hw, bindError]
  case T =>
    rcases runWrite_cases fails k with hw | hw
    · rcases runWrite_cases fails (k + 1) with hw2 | hw2
      · right; simp [balanceReverse, hw, hw2, runWrite_noFail, bindOk]
      · left; simp [balanceReverse, hw, hw2, bindOk, bindError]
    · left; simp [balanceReverse, hw, bindError]

theorem balanceApply_ok {fails : Nat → Bool} {k : Nat} {t : Txn}
    {accs res : List Account}
    (h : balanceApply fails k t.transactionType t.amount t.accountId t.transferAccountId accs
      = .ok res) :
    res = applyEffects (effectsOf t) accs := by
  rcases balanceApply_shape fails k t.transactionType t.amount t.accountId
    t.transferAccountId accs with hs | hs
  · rw [hs] at h; cases h
  · rw [hs, balanceApply_noFail] at h
    exact (Except.ok.injEq _ _ ▸ h).symm

theorem balanceReverse_ok {fails : Nat → Bool} {k : Nat} {t : Txn}
    {accs res : List Account}
    (h : balanceReverse fails k t.transactionType t.amount t.accountId t.transferAccountId accs
      = .ok res) :
    res = applyEffects (negEffects (effectsOf t)) accs := by
  rcases balanceReverse_shape fails k t.transactionType t.amount t.accountId
    t.transferAccountId accs with hs | hs
  · rw [hs] at h; cases h
  · rw [hs, balanceReverse_noFail] at h
    exact (Except.ok.injEq _ _ ▸ h).symm

/-! ### Success-shape lemmas for the three atomic units -/

theorem checkAccountRef_cases (st : Store) (u : Nat) (r : Option Nat) (e : LedgerError) :
    TransactionModel.checkAccountRef st u r e = .ok () ∨
    TransactionModel.checkAccountRef st u r e = .error e := by
  cases r with
  | none => exact Or.inl rfl
  | some a =>
      by_cases hx : accountExists st a u = true <;>
        simp [TransactionModel.checkAccountRef, hx]

theorem checkCategoryRef_cases (st : Store) (u : Nat) (r : Option Nat) (typ : TxKind) :
    TransactionModel.checkCategoryRef st u r typ = .ok () ∨
    TransactionModel.checkCategoryRef st u r typ = .error .categoryNotFound ∨
    TransactionModel.checkCategoryRef st u r typ = .error .categoryKindMismatch := by
  cases r with
  | none => exact Or.inl rfl
  | some c =>
      cases hfc : findCategory st c u with
      | none => simp [TransactionModel.checkCategoryRef, hfc]
      | some cat =>
          by_cases hk : cat.accountType = typ <;>
            simp [TransactionModel.checkCategoryRef, hfc, hk]

theorem createGo_ok {fails : Nat → Bool} {u : Nat} {d : CreateTransactionData}
    {now : Int} {st : Store} {t : Txn} {s' : Store}
    (h : TransactionModel.createGo fails u d now st = .ok (t, s')) :
    t = TransactionModel.mkTxn u d now st.nextTxId ∧
    s' = { st with
      accounts := applyEffects (effectsOf t) st.accounts
      transactions := st.transactions ++ [t]
      nextTxId := st.nextTxId + 1 } := by
  unfold TransactionModel.createGo at h
  rcases checkAccountRef_cases st u d.accountId .accountNotFound with h1 | h1 <;>
    rw [h1] at h
  case inr => rw [bindError] at h; cases h
  rw [bindOk] at h
  rcases checkAccountRef_cases st u d.transferAccountId .transferAccountNotFound with h2 | h2 <;>
    rw [h2] at h
  case inr => rw [bindError] at h; cases h
  rw [bindOk] at h
  rcases checkCategoryRef_cases st u d.categoryId d.transactionType with h3 | h3 | h3 <;>
    rw [h3] at h
  case inr.inl => rw [bindError] at h; cases h
  case inr.inr => rw [bindError] at h; cases h
  rw [bindOk] at h
  rcases runWrite_cases fails 0 with h4 | h4 <;> rw [h4] at h
  case inr => rw [bindError] at h; cases h
  rw [bindOk] at h
  cases hba : balanceApply fails 1 d.transactionType d.amount d.accountId
      d.transferAccountId st.accounts with
  | error e => rw [hba, bindError] at h; cases h
  | ok accs =>
      rw [hba, bindOk, pureEqOk] at h
      have haccs : accs = applyEffects (effectsOf (TransactionModel.mkTxn u d now st.nextTxId))
          st.accounts :=
        balanceApply_ok (t := TransactionModel.mkTxn u d now st.nextTxId) hba
      simp only [Except.ok.injEq, Prod.mk.injEq] at h
      obtain ⟨ht, hs⟩ := h
      subst ht
      subst haccs
      exact ⟨rfl, hs.symm⟩

theorem updateGo_ok {fails : Nat → Bool} {id u : Nat} {upd : UpdateTransactionData}
    {st : Store} {res : Option Txn} {s' : Store}
    (h : TransactionModel.updateGo fails id u upd st = .ok (res, s')) :
    (TransactionModel.findById id u st = none ∧ res = none ∧ s' = st) ∨
    (TransactionModel.emptyUpdate upd = true ∧
      res = TransactionModel.findById id u st ∧ s' = st) ∨
    ∃ tx, TransactionModel.findById id u st = some tx ∧
      TransactionModel.emptyUpdate upd = false ∧
      res = some (TransactionModel.mergeTxn tx upd) ∧
      s' = { st with
        accounts := applyEffects (effectsOf (TransactionModel.mergeTxn tx upd))
          (applyEffects (negEffects (effectsOf tx)) st.accounts)
        transactions := st.transactions.map (fun t' =>
          if t'.id == id && t'.userId == u then TransactionModel.mergeTxn tx upd else t') } := by
  unfold TransactionModel.updateGo at h
  split at h
  · rename_i hf
    simp only [pureEqOk, Except.ok.injEq, Prod.mk.injEq] at h
    exact Or.inl ⟨hf, h.1.symm, h.2.symm⟩
  · rename_i tx hf
    rcases checkAccountRef_cases st u upd.accountId .accountNotFound with h1 | h1 <;>
      rw [h1] at h
    case inr => rw [bindError] at h; cases h
    rw [bindOk] at h
    rcases checkAccountRef_cases st u upd.transferAccountId .transferAccountNotFound
      with h2 | h2 <;> rw [h2] at h
    case inr => rw [bindError] at h; cases h
    rw [bindOk] at h
    rcases checkCategoryRef_cases st u upd.categoryId
      (upd.transactionType.getD tx.transactionType) with h3 | h3 | h3 <;> rw [h3] at h
    case inr.inl => rw [bindError] at h; cases h
    case inr.inr => rw [bindError] at h; cases h
    rw [bindOk] at h
    cases hbr : balanceReverse fails 0 tx.transactionType tx.amount tx.accountId
        tx.transferAccountId st.accounts with
    | error e => rw [hbr, bindError] at h; cases h
    | ok accs1 =>
        rw [hbr, bindOk] at h
        have haccs1 : accs1 = applyEffects (negEffects (effectsOf tx)) st.accounts :=
          balanceReverse_ok hbr
        split at h
        · rename_i hemp
          simp only [pureEqOk, Except.ok.injEq, Prod.mk.injEq] at h
          exact Or.inr (Or.inl ⟨hemp, h.1.symm, h.2.symm⟩)
        · rename_i hemp
          have hemp' : TransactionModel.emptyUpdate upd = false :=
            Bool.not_eq_true _ ▸ eq_false_of_ne_true hemp
          rcases runWrite_cases fails (writeCount tx.transactionType) with h4 | h4 <;>
            rw [h4] at h
          case inr => rw [bindError] at h; cases h
          rw [bindOk] at h
          cases hba : balanceApply fails (writeCount tx.transactionType + 1)
              (TransactionModel.mergeTxn tx upd).transactionType
              (TransactionModel.mergeTxn tx upd).amount
              (TransactionModel.mergeTxn tx upd).accountId
              (TransactionModel.mergeTxn tx upd).transferAccountId accs1 with
          | error e => rw [hba, bindError] at h; cases h
          | ok accs2 =>
              rw [hba, bindOk, pureEqOk] at h
              have haccs2 : accs2 = applyEffects
                  (effectsOf (TransactionModel.mergeTxn tx upd)) accs1 :=
                balanceApply_ok hba
              simp only [Except.ok.injEq, Prod.mk.injEq] at h
              obtain ⟨hres, hs⟩ := h
              refine Or.inr (Or.inr ⟨tx, hf, hemp', hres.symm, ?_⟩)
              rw [← hs, haccs2, haccs1]

theorem deleteGo_ok {fails : Nat → Bool} {id u : Nat} {st : Store} {res : Bool} {s' : Store}
    (h : TransactionModel.deleteGo fails id u st = .ok (res, s')) :
    s' = st ∨
    ∃ tx, TransactionModel.findById id u st = some tx ∧
      s' = { st with
        accounts := applyEffects (negEffects (effectsOf tx)) st.accounts
        transactions := st.transactions.filter (fun t' =>
          !(t'.id == id && t'.userId == u)) } := by
  unfold TransactionModel.deleteGo at h
  split at h
  · simp only [pureEqOk, Except.ok.injEq, Prod.mk.injEq] at h
    exact Or.inl h.2.symm
  · rename_i tx hf
    cases hbr : balanceReverse fails 0 tx.transactionType tx.amount tx.accountId
        tx.transferAccountId st.accounts with
    | error e => rw [hbr, bindError] at h; cases h
    | ok accs1 =>
        rw [hbr, bindOk] at h
        have haccs1 : accs1 = applyEffects (negEffects (effectsOf tx)) st.accounts :=
          balanceReverse_ok hbr
        rcases runWrite_cases fails (writeCount tx.transactionType) with h4 | h4 <;>
          rw [h4] at h
        case inr => rw [bindError] at h; cases h
        rw [bindOk, pureEqOk] at h
        simp only [Except.ok.injEq, Prod.mk.injEq] at h
        obtain ⟨hres, hs⟩ := h
        refine Or.inr ⟨tx, hf, ?_⟩
        rw [← hs, haccs1]

/-! ### The row matched by the primary key is unique (transactions_pk) -/

theorem rowPred_id {id u : Nat} {t : Txn}
    (h : (t.id == id && t.userId == u) = true) : t.id = id := by
  have hand := (Bool.and_eq_true _ _).mp h
  exact eq_of_beq hand.1

theorem split_unique_match {ts : List Txn} {id u : Nat} {tx : Txn}
    (hnodup : (ts.map Txn.id).Nodup)
    (hmem : tx ∈ ts) (hptx : (tx.id == id && tx.userId == u) = true) :
    ∃ l1 l2, ts = l1 ++ tx :: l2 ∧
      (∀ t ∈ l1, (t.id == id && t.userId == u) = false) ∧
      (∀ t ∈ l2, (t.id == id && t.userId == u) = false) := by
  obtain ⟨l1, l2, rfl⟩ := List.mem_iff_append.mp hmem
  have hmap : (l1 ++ tx :: l2).map Txn.id = l1.map Txn.id ++ tx.id :: l2.map Txn.id := by
    simp
  rw [hmap, List.nodup_append] at hnodup
  obtain ⟨hn1, hn2, hdisj⟩ := hnodup
  have htxid2 : tx.id ∉ l2.map Txn.id := (List.nodup_cons.mp hn2).1
  refine ⟨l1, l2, rfl, ?_, ?_⟩
  · intro t ht
    cases hq : (t.id == id && t.userId == u)
    · rfl
    · exfalso
      have hid : t.id = tx.id := by rw [rowPred_id hq, rowPred_id hptx]
      exact hdisj (hid ▸ List.mem_map_of_mem Txn.id ht) (List.mem_cons_self _ _)
  · intro t ht
    cases hq : (t.id == id && t.userId == u)
    · rfl
    · exfalso
      have hid : t.id = tx.id := by rw [rowPred_id hq, rowPred_id hptx]
      exact htxid2 (hid ▸ List.mem_map_of_mem Txn.id ht)

theorem map_replace_split (l1 l2 : List Txn) (p : Txn → Bool) (tx m : Txn)
    (h1 : ∀ t ∈ l1, p t = false) (h2 : ∀ t ∈ l2, p t = false) (hptx : p tx = true) :
    (l1 ++ tx :: l2).map (fun t => if p t then m else t) = l1 ++ m :: l2 := by
  rw [List.map_append, List.map_cons]
  have e1 : l1.map (fun t => if p t then m else t) = l1 := by
    have he : l1.map (fun t => if p t then m else t) = l1.map id :=
      List.map_congr_left (fun t ht => by simp [h1 t ht])
    rw [he, List.map_id]
  have e2 : l2.map (fun t => if p t then m else t) = l2 := by
    have he : l2.map (fun t => if p t then m else t) = l2.map id :=
      List.map_congr_left (fun t ht => by simp [h2 t ht])
    rw [he, List.map_id]
  rw [e1, e2, if_pos hptx]

theorem filter_not_split (l1 l2 : List Txn) (p : Txn → Bool) (tx : Txn)
    (h1 : ∀ t ∈ l1, p t = false) (h2 : ∀ t ∈ l2, p t = false) (hptx : p tx = true) :
    (l1 ++ tx :: l2).filter (fun t => !p t) = l1 ++ l2 := by
  rw [List.filter_append, List.filter_cons]
  have e1 : l1.filter (fun t => !p t) = l1 :=
    List.filter_eq_self.mpr (fun t ht => by simp [h1 t ht])
  have e2 : l2.filter (fun t => !p t) = l2 :=
    List.filter_eq_self.mpr (fun t ht => by simp [h2 t ht])
  rw [e1, e2]
  simp [hptx]

theorem txnsEffectOn_append (aid : Nat) (l1 l2 : List Txn) :
    txnsEffectOn aid (l1 ++ l2) = txnsEffectOn aid l1 + txnsEffectOn aid l2 := by
  simp [txnsEffectOn]

theorem txnsEffectOn_cons (aid : Nat) (t : Txn) (l : List Txn) :
    txnsEffectOn aid (t :: l) = effectSumOn aid (effectsOf t) + txnsEffectOn aid l := by
  simp [txnsEffectOn]

theorem txnsEffectOn_singleton (aid : Nat) (t : Txn) :
    txnsEffectOn aid [t] = effectSumOn aid (effectsOf t) := by
  simp [txnsEffectOn]

/-! ### Preservation of the balance invariant and well-formedness -/

theorem balanceInv_create {st : Store} (t : Txn) (hinv : BalanceInv st) :
    BalanceInv { st with
      accounts := applyEffects (effectsOf t) st.accounts
      transactions := st.transactions ++ [t]
      nextTxId := st.nextTxId + 1 } := by
  intro a' ha'
  rw [applyEffects_eq_map] at ha'
  obtain ⟨a, ha, rfl⟩ := List.mem_map.mp ha'
  dsimp only
  rw [txnsEffectOn_append, txnsEffectOn_singleton, ← hinv a ha]

theorem balanceInv_update {st : Store} {id u : Nat} {tx : Txn} (m : Txn)
    (hinv : BalanceInv st) (hwf : StoreWF st)
    (hf : TransactionModel.findById id u st = some tx) :
    BalanceInv { st with
      accounts := applyEffects (effectsOf m)
        (applyEffects (negEffects (effectsOf tx)) st.accounts)
      transactions := st.transactions.map (fun t' =>
        if t'.id == id && t'.userId == u then m else t') } := by
  have hmem := List.mem_of_find?_eq_some hf
  have hptx := List.find?_some hf
  obtain ⟨l1, l2, hts, hA, hB⟩ := split_unique_match hwf.1 hmem hptx
  intro a' ha'
  rw [applyEffects_eq_map, applyEffects_eq_map, List.map_map] at ha'
  obtain ⟨a, ha, rfl⟩ := List.mem_map.mp ha'
  have hold := hinv a ha
  rw [hts, txnsEffectOn_append, txnsEffectOn_cons] at hold
  dsimp only [Function.comp]
  rw [hts, map_replace_split l1 l2 _ tx m hA hB hptx,
    txnsEffectOn_append, txnsEffectOn_cons, effectSumOn_negEffects]
  omega

theorem balanceInv_delete {st : Store} {id u : Nat} {tx : Txn}
    (hinv : BalanceInv st) (hwf : StoreWF st)
    (hf : TransactionModel.findById id u st = some tx) :
    BalanceInv { st with
      accounts := applyEffects (negEffects (effectsOf tx)) st.accounts
      transactions := st.transactions.filter (fun t' =>
        !(t'.id == id && t'.userId == u)) } := by
  have hmem := List.mem_of_find?_eq_some hf
  have hptx := List.find?_some hf
  obtain ⟨l1, l2, hts, hA, hB⟩ := split_unique_match hwf.1 hmem hptx
  intro a' ha'
  rw [applyEffects_eq_map] at ha'
  obtain ⟨a, ha, rfl⟩ := List.mem_map.mp ha'
  have hold := hinv a ha
  rw [hts, txnsEffectOn_append, txnsEffectOn_cons] at hold
  dsimp only
  rw [hts, filter_not_split l1 l2 _ tx hA hB hptx,
    txnsEffectOn_append, effectSumOn_negEffects]
  omega

theorem storeWF_create {st : Store} (A : List Account) (t : Txn) (hwf : StoreWF st)
    (hid : t.id = st.nextTxId) :
    StoreWF { st with
      accounts := A
      transactions := st.transactions ++ [t]
      nextTxId := st.nextTxId + 1 } := by
  obtain ⟨hnd, hlt⟩ := hwf
  constructor
  · dsimp only
    rw [List.map_append, List.nodup_append]
    refine ⟨hnd, by simp, ?_⟩
    intro x hx hx2
    simp only [List.map_cons, List.map_nil, List.mem_singleton] at hx2
    obtain ⟨t', ht', hteq⟩ := List.mem_map.mp hx
    have hlt' := hlt t' ht'
    omega
  · intro t' ht'
    dsimp only at ht' ⊢
    rcases List.mem_append.mp ht' with h | h
    · exact Nat.lt_succ_of_lt (hlt t' h)
    · simp only [List.mem_singleton] at h
      subst h
      omega

theorem storeWF_update {st : Store} {id u : Nat} {tx : Txn} (A : List Account) (m : Txn)
    (hwf : StoreWF st) (hf : TransactionModel.findById id u st = some tx)
    (hmid : m.id = tx.id) :
    StoreWF { st with
      accounts := A
      transactions := st.transactions.map (fun t' =>
        if t'.id == id && t'.userId == u then m else t') } := by
  obtain ⟨hnd, hlt⟩ := hwf
  have hmem := List.mem_of_find?_eq_some hf
  have hptx := List.find?_some hf
  have hids : (st.transactions.map (fun t' =>
      if t'.id == id && t'.userId == u then m else t')).map Txn.id
      = st.transactions.map Txn.id := by
    rw [List.map_map]
    apply List.map_congr_left
    intro t ht
    cases hq : (t.id == id && t.userId == u) <;> simp only [Function.comp_apply, hq]
    · simp
    · simp only [if_true]
      rw [hmid, rowPred_id hptx, rowPred_id hq]
  constructor
  · dsimp only
    rw [hids]
    exact hnd
  · intro t' ht'
    dsimp only at ht'
    obtain ⟨t, ht, rfl⟩ := List.mem_map.mp ht'
    cases hq : (t.id == id && t.userId == u) <;> simp only [hq]
    · simp only [if_false, Bool.false_eq_true]
      exact hlt t ht
    · simp only [if_true]
      rw [hmid]
      exact hlt tx hmem

theorem storeWF_delete {st : Store} (A : List Account) (p : Txn → Bool)
    (hwf : StoreWF st) :
    StoreWF { st with
      accounts := A
      transactions := st.transactions.filter p } := by
  obtain ⟨hnd, hlt⟩ := hwf
  constructor
  · exact List.Nodup.sublist (List.Sublist.map _ (List.filter_sublist _)) hnd
  · intro t ht
    exact hlt t (List.mem_filter.mp ht).1

/-! ### Invariant preservation along operation sequences -/

theorem atomically_snd {α : Type} (st : Store) (body : Except LedgerError (α × Store))
    (P : Store → Prop) (hok : ∀ a s, body = .ok (a, s) → P s) (hbase : P st) :
    P (atomically st body).2 := by
  cases body with
  | ok p => exact hok p.1 p.2 rfl
  | error e => exact hbase

theorem stepOp_preserves (st : Store) (op : Op)
    (hinv : BalanceInv st) (hwf : StoreWF st) :
    BalanceInv (stepOp st op) ∧ StoreWF (stepOp st op) := by
  cases op with
  | create u d now =>
      exact atomically_snd st _ (fun s => BalanceInv s ∧ StoreWF s)
        (fun t s' hgo => by
          obtain ⟨ht, hs⟩ := createGo_ok hgo
          subst hs
          exact ⟨balanceInv_create t hinv, storeWF_create _ t hwf (by subst ht; rfl)⟩)
        ⟨hinv, hwf⟩
  | update i u upd =>
      exact atomically_snd st _ (fun s => BalanceInv s ∧ StoreWF s)
        (fun res s' hgo => by
          rcases updateGo_ok hgo with ⟨_, _, hs⟩ | ⟨_, _, hs⟩ | ⟨tx, hf, hemp, hres, hs⟩
          · subst hs; exact ⟨hinv, hwf⟩
          · subst hs; exact ⟨hinv, hwf⟩
          · subst hs
            exact ⟨balanceInv_update _ hinv hwf hf, storeWF_update _ _ hwf hf rfl⟩)
        ⟨hinv, hwf⟩
  | delete i u =>
      exact atomically_snd st _ (fun s => BalanceInv s ∧ StoreWF s)
        (fun res s' hgo => by
          rcases deleteGo_ok hgo with hs | ⟨tx, hf, hs⟩
          · subst hs; exact ⟨hinv, hwf⟩
          · subst hs
            exact ⟨balanceInv_delete hinv hwf hf, storeWF_delete _ _ hwf⟩)
        ⟨hinv, hwf⟩

theorem runOps_preserves (ops : List Op) (st : Store)
    (hinv : BalanceInv st) (hwf : StoreWF st) :
    BalanceInv (runOps st ops) ∧ StoreWF (runOps st ops) := by
  induction ops generalizing st with
  | nil => exact ⟨hinv, hwf⟩
  | cons op ops ih =>
      have hstep := stepOp_preserves st op hinv hwf
      exact ih (stepOp st op) hstep.1 hstep.2

/-! ### Rollback and further characterizations -/

theorem atomically_err {α : Type} (st : Store) (body : Except LedgerError (α × Store))
    (e : LedgerError) (h : (atomically st body).1 = .err e) :
    (atomically st body).2 = st := by
  cases body with
  | ok p => simp [atomically] at h
  | error e2 => rfl

theorem update_ok_pair {fails : Nat → Bool} {id u : Nat} {upd : UpdateTransactionData}
    {st : Store} {res : Option Txn} {s' : Store}
    (h : TransactionModel.update fails id u upd st = (.ok res, s')) :
    TransactionModel.updateGo fails id u upd st = .ok (res, s') := by
  unfold TransactionModel.update at h
  cases hb : TransactionModel.updateGo fails id u upd st with
  | ok p =>
      rw [hb] at h
      simp only [atomically, Prod.mk.injEq, OpResult.ok.injEq] at h
      rw [← h.1, ← h.2]
  | error e =>
      rw [hb] at h
      simp [atomically] at h

theorem emptyUpdate_false_of_amount {upd : UpdateTransactionData} {B : Int}
    (h : upd.amount = some B) : TransactionModel.emptyUpdate upd = false := by
  simp [TransactionModel.emptyUpdate, h]

theorem update_ok_accounts {fails : Nat → Bool} {id u : Nat}
    {upd : UpdateTransactionData} {st : Store} {tx : Txn} {res : Option Txn} {s' : Store}
    (hf : TransactionModel.findById id u st = some tx)
    (hemp : TransactionModel.emptyUpdate upd = false)
    (h : TransactionModel.update fails id u upd st = (.ok res, s')) :
    res = some (TransactionModel.mergeTxn tx upd) ∧
    s'.accounts = st.accounts.map (fun a =>
      { a with currentValue := a.currentValue
          - effectSumOn a.id (effectsOf tx)
          + effectSumOn a.id (effectsOf (TransactionModel.mergeTxn tx upd)) }) := by
  have hgo := update_ok_pair h
  rcases updateGo_ok hgo with ⟨hn, _, _⟩ | ⟨he, _, _⟩ | ⟨tx2, hf2, _, hres, hs⟩
  · rw [hf] at hn; cases hn
  · rw [he] at hemp; cases hemp
  · rw [hf] at hf2
    injection hf2 with htx
    subst htx
    refine ⟨hres, ?_⟩
    rw [hs]
    dsimp only
    rw [applyEffects_eq_map, applyEffects_eq_map, List.map_map]
    apply List.map_congr_left
    intro a _
    dsimp only [Function.comp]
    rw [effectSumOn_negEffects]
    have harith : a.currentValue + -effectSumOn a.id (effectsOf tx)
        + effectSumOn a.id (effectsOf (TransactionModel.mergeTxn tx upd))
        = a.currentValue - effectSumOn a.id (effectsOf tx)
        + effectSumOn a.id (effectsOf (TransactionModel.mergeTxn tx upd)) := by
      omega
    rw [harith]

/-! ### Summary characterizations -/

theorem groupRow_eq (rows : List Txn) (k : TxKind) :
    TransactionModel.groupRow rows k =
      (if (rows.filter (fun t => t.transactionType == k)).isEmpty then none
        else some (((rows.filter (fun t => t.transactionType == k)).map Txn.amount).sum,
          (rows.filter (fun t => t.transactionType == k)).length)) := rfl

theorem length_filter_kinds (rows : List Txn) :
    (rows.filter (fun t => t.transactionType == TxKind.E)).length
      + (rows.filter (fun t => t.transactionType == TxKind.I)).length
      + (rows.filter (fun t => t.transactionType == TxKind.T)).length
      = rows.length := by
  induction rows with
  | nil => rfl
  | cons t rows ih =>
      cases ht : t.transactionType <;>
        simp [List.filter_cons, ht] <;> omega

theorem sumOfRow_group (rows : List Txn) (k : TxKind) :
    TransactionModel.sumOfRow (TransactionModel.groupRow rows k)
      = ((rows.filter (fun t => t.transactionType == k)).map Txn.amount).sum := by
  rw [groupRow_eq]
  by_cases h : (rows.filter (fun t => t.transactionType == k)).isEmpty
  · rw [if_pos h, List.isEmpty_iff.mp h]
    rfl
  · rw [if_neg h]
    rfl

theorem countOfRow_group (rows : List Txn) (k : TxKind) :
    TransactionModel.countOfRow (TransactionModel.groupRow rows k)
      = (rows.filter (fun t => t.transactionType == k)).length := by
  rw [groupRow_eq]
  by_cases h : (rows.filter (fun t => t.transactionType == k)).isEmpty
  · rw [if_pos h, List.isEmpty_iff.mp h]
    rfl
  · rw [if_neg h]
    rfl

theorem getSummary_totalIncome (u : Nat) (s e : Option Int) (st : Store) :
    (TransactionModel.getSummary u s e st).totalIncome =
      (((TransactionModel.summaryRows u s e st).filter
        (fun t => t.transactionType == TxKind.I)).map Txn.amount).sum := by
  unfold TransactionModel.getSummary
  dsimp only
  rw [sumOfRow_group]

theorem getSummary_totalExpenses (u : Nat) (s e : Option Int) (st : Store) :
    (TransactionModel.getSummary u s e st).totalExpenses =
      (((TransactionModel.summaryRows u s e st).filter
        (fun t => t.transactionType == TxKind.E)).map Txn.amount).sum := by
  unfold TransactionModel.getSummary
  dsimp only
  rw [sumOfRow_group]

theorem getSummary_totalTransfers (u : Nat) (s e : Option Int) (st : Store) :
    (TransactionModel.getSummary u s e st).totalTransfers =
      (((TransactionModel.summaryRows u s e st).filter
        (fun t => t.transactionType == TxKind.T)).map Txn.amount).sum := by
  unfold TransactionModel.getSummary
  dsimp only
  rw [sumOfRow_group]

theorem getSummary_netAmount (u : Nat) (s e : Option Int) (st : Store) :
    (TransactionModel.getSummary u s e st).netAmount =
      (TransactionModel.getSummary u s e st).totalIncome
        - (TransactionModel.getSummary u s e st).totalExpenses := by
  unfold TransactionModel.getSummary
  dsimp only

theorem getSummary_count (u : Nat) (s e : Option Int) (st : Store) :
    (TransactionModel.getSummary u s e st).transactionCount
      = (TransactionModel.summaryRows u s e st).length := by
  unfold TransactionModel.getSummary
  dsimp only
  rw [countOfRow_group, countOfRow_group, countOfRow_group, length_filter_kinds]

/-! ### Deletion-guard counting -/

theorem countP_pos_of_any {l : List Txn} {p : Txn → Bool} (h : l.any p = true) :
    0 < l.countP p :=
  List.countP_pos_iff.mpr (List.any_eq_true.mp h)

theorem countP_eq_zero_of_any_false {l : List Txn} {p : Txn → Bool}
    (h : l.any p = false) : l.countP p = 0 :=
  List.countP_eq_zero.mpr (fun a ha hpa => by
    rw [List.any_eq_false] at h
    exact h a ha hpa)

/-! ### Claim theorems -/

/-- C1: for every finite sequence of createTransaction, updateTransaction and
deleteTransaction requests starting from a well-formed store in which it
holds, the balance invariant is maintained: each account's stored currentValue
equals the sum of the signed effects of all currently stored transactions that
reference it as primary account or transfer target. -/
theorem balance_conservation (ops : List Op) (st : Store)
    (hwf : StoreWF st) (hinv : BalanceInv st) :
    BalanceInv (runOps st ops) :=
  (runOps_preserves ops st hinv hwf).1

/-- Witness for C1: the spec's scenario (create an income of 50.00 on account
1, update its amount to 30.00, delete it) run from the concrete store `wStore`
keeps the invariant. -/
theorem balance_conservation_witness :
    StoreWF wStore ∧ BalanceInv wStore ∧ BalanceInv (runOps wStore wOps) :=
  ⟨by unfold StoreWF; decide, by unfold BalanceInv; decide,
    balance_conservation wOps wStore (by unfold StoreWF; decide)
      (by unfold BalanceInv; decide)⟩

/-- C2: the balance effect of a transaction is exactly - Expense: a single
delta of -amount on the referenced account; Income: a single delta of +amount;
Transfer: -amount on the primary account and +amount on the transfer target.
The inline balance-update blocks of the model realize precisely these effect
lists (and the reversal blocks the negated lists), and the effect list is a
function of the transaction image alone, hence deterministic. -/
theorem effect_calculator (t t' : Txn) (accs : List Account) (k : Nat) (a b : Nat) :
    (balanceApply noFail k t.transactionType t.amount t.accountId t.transferAccountId accs
      = .ok (applyEffects (effectsOf t) accs)) ∧
    (balanceReverse noFail k t.transactionType t.amount t.accountId t.transferAccountId accs
      = .ok (applyEffects (negEffects (effectsOf t)) accs)) ∧
    (t.transactionType = .E → t.accountId = some a → effectsOf t = [(a, -t.amount)]) ∧
    (t.transactionType = .I → t.accountId = some a → effectsOf t = [(a, t.amount)]) ∧
    (t.transactionType = .T → t.accountId = some a → t.transferAccountId = some b →
      effectsOf t = [(a, -t.amount), (b, t.amount)]) ∧
    (t.transactionType = t'.transactionType → t.amount = t'.amount →
      t.accountId = t'.accountId → t.transferAccountId = t'.transferAccountId →
      effectsOf t = effectsOf t') := by
  refine ⟨balanceApply_noFail k t accs, balanceReverse_noFail k t accs, ?_, ?_, ?_, ?_⟩
  · intro h1 h2
    simp [effectsOf, h1, h2]
  · intro h1 h2
    simp [effectsOf, h1, h2]
  · intro h1 h2 h3
    simp [effectsOf, h1, h2, h3]
  · intro h1 h2 h3 h4
    simp [effectsOf, h1, h2, h3, h4]

/-- Witness for C2: the transfer image `wTxnT` (40.00 from account 1 to
account 2) yields the effect list [(1, -4000), (2, 4000)], and the balance
block applies exactly it. -/
theorem effect_calculator_witness :
    effectsOf wTxnT = [(1, -4000), (2, 4000)] ∧
    balanceApply noFail 0 wTxnT.transactionType wTxnT.amount wTxnT.accountId
      wTxnT.transferAccountId wStore.accounts
      = .ok (applyEffects (effectsOf wTxnT) wStore.accounts) :=
  ⟨(effect_calculator wTxnT wTxnT wStore.accounts 0 1 2).2.2.2.2.1 rfl rfl rfl,
    (effect_calculator wTxnT wTxnT wStore.accounts 0 1 2).1⟩

/-- C7: each of create, update and delete runs as one atomic unit: whenever
the operation reports an error - a validation failure or an injected store
failure at any write statement of the unit - the resulting store is exactly
the initial store, so no transaction row or balance change survives. -/
theorem atomic_units_rollback (fails : Nat → Bool) (tid u : Nat)
    (d : CreateTransactionData) (now : Int) (upd : UpdateTransactionData)
    (st : Store) (e1 e2 e3 : LedgerError) :
    ((TransactionModel.create fails u d now st).1 = .err e1 →
      (TransactionModel.create fails u d now st).2 = st) ∧
    ((TransactionModel.update fails tid u upd st).1 = .err e2 →
      (TransactionModel.update fails tid u upd st).2 = st) ∧
    ((TransactionModel.delete fails tid u st).1 = .err e3 →
      (TransactionModel.delete fails tid u st).2 = st) :=
  ⟨fun h => atomically_err st _ e1 h,
    fun h => atomically_err st _ e2 h,
    fun h => atomically_err st _ e3 h⟩

/-- Witness for C7: a create with an unknown account reference fails and
leaves the store unchanged, and an update and a delete whose balance writes
all fail report storeFailure and leave the store unchanged. -/
theorem atomic_units_rollback_witness :
    (TransactionModel.create noFail 1 badAccountCreate 10 wStore).1
      = .err .accountNotFound ∧
    (TransactionModel.create noFail 1 badAccountCreate 10 wStore).2 = wStore ∧
    (TransactionModel.update allFail 1 1 { amount := some 3000 } c3Store).1
      = .err .storeFailure ∧
    (TransactionModel.update allFail 1 1 { amount := some 3000 } c3Store).2 = c3Store ∧
    (TransactionModel.delete allFail 1 1 c3Store).1 = .err .storeFailure ∧
    (TransactionModel.delete allFail 1 1 c3Store).2 = c3Store := by
  have h1 := (atomic_units_rollback noFail 1 1 badAccountCreate 10
    { amount := some 3000 } wStore .accountNotFound .accountNotFound .accountNotFound).1
  have h2 := atomic_units_rollback allFail 1 1 badAccountCreate 10
    { amount := some 3000 } c3Store .storeFailure .storeFailure .storeFailure
  exact ⟨by decide, h1 (by decide), by decide, h2.2.1 (by decide), by decide,
    h2.2.2 (by decide)⟩

/-- C8: deleting a transaction id that does not exist for the acting user
returns false and leaves the store - every account balance and every stored
transaction - unchanged; it is a no-op, not an error. -/
theorem delete_missing_is_noop (fails : Nat → Bool) (tid u : Nat) (st : Store)
    (h : TransactionModel.findById tid u st = none) :
    TransactionModel.delete fails tid u st = (.ok false, st) := by
  unfold TransactionModel.delete TransactionModel.deleteGo
  simp only [h]
  rfl

/-- Witness for C8: deleting the unknown id 99 from `wStore` returns false and
the store unchanged. -/
theorem delete_missing_is_noop_witness :
    TransactionModel.delete noFail 99 1 wStore = (.ok false, wStore) :=
  delete_missing_is_noop noFail 99 1 wStore (by decide)

/-- C9: the transaction summary returns, for each kind, the sum of amounts of
the user's transactions of that kind within the optional date range - zero for
a kind with no selected transactions, since the sum over the empty selection
is zero - with netAmount equal to income minus expenses and a count of all
selected rows; and the monthly summary is exactly this summary with the range
set to the first through last day of the given calendar month. -/
theorem summary_per_kind (u : Nat) (s e : Option Int) (y m : Nat) (st : Store) :
    ((TransactionModel.getSummary u s e st).totalIncome =
      (((TransactionModel.summaryRows u s e st).filter
        (fun t => t.transactionType == TxKind.I)).map Txn.amount).sum) ∧
    ((TransactionModel.getSummary u s e st).totalExpenses =
      (((TransactionModel.summaryRows u s e st).filter
        (fun t => t.transactionType == TxKind.E)).map Txn.amount).sum) ∧
    ((TransactionModel.getSummary u s e st).totalTransfers =
      (((TransactionModel.summaryRows u s e st).filter
        (fun t => t.transactionType == TxKind.T)).map Txn.amount).sum) ∧
    ((TransactionModel.getSummary u s e st).netAmount =
      (TransactionModel.getSummary u s e st).totalIncome
        - (TransactionModel.getSummary u s e st).totalExpenses) ∧
    ((TransactionModel.getSummary u s e st).transactionCount =
      (TransactionModel.summaryRows u s e st).length) ∧
    (TransactionModel.getMonthlySummary u y m st
      = TransactionModel.getSummary u (some (dateVal y m 1))
        (some (dateVal y m (daysInMonth y m))) st) :=
  ⟨getSummary_totalIncome u s e st, getSummary_totalExpenses u s e st,
    getSummary_totalTransfers u s e st, getSummary_netAmount u s e st,
    getSummary_count u s e st, rfl⟩

/-- C10: an update whose request supplies no updatable field is a pure no-op
at the public interface: the operation succeeds, the resulting store (every
account balance and the stored row) is exactly the input store - the reversal
issued inside the unit is rolled back, not committed - and the stored
transaction is returned. -/
theorem update_empty_is_noop (tid u : Nat) (upd : UpdateTransactionData)
    (st : Store) (tx : Txn)
    (hemp : TransactionModel.emptyUpdate upd = true)
    (hf : TransactionModel.findById tid u st = some tx) :
    TransactionModel.update noFail tid u upd st = (.ok (some tx), st) := by
  have hall := hemp
  simp only [TransactionModel.emptyUpdate, Bool.and_eq_true,
    Option.isNone_iff_eq_none] at hall
  obtain ⟨⟨⟨⟨⟨⟨⟨h1, h2⟩, h3⟩, h4⟩, h5⟩, h6⟩, h7⟩, h8⟩ := hall
  unfold TransactionModel.update TransactionModel.updateGo
  simp only [hf, h6, h7, h8, TransactionModel.checkAccountRef,
    TransactionModel.checkCategoryRef, bindOk, balanceReverse_noFail, hemp,
    eq_self_iff_true, if_true, pureEqOk, atomically]

/-- Witness for C10: an all-empty update of the stored transaction of
`c3Store` returns the stored transaction and the unchanged store. -/
theorem update_empty_is_noop_witness :
    TransactionModel.update noFail 1 1 {} c3Store = (.ok (some c3Txn), c3Store) :=
  update_empty_is_noop 1 1 {} c3Store c3Txn (by decide) (by decide)

/-- Counterexample for C3: the stored transaction of `c3Store` is an Expense
of amount A = 10.00 on account 1, whose balance is -10.00. Updating the
amount to B = 30.00 succeeds and moves the balance to -30.00, a change of
A - B = -20.00, not B - A = +20.00 as the claim states for every kind. -/
theorem update_amount_delta_counterexample :
    (TransactionModel.update noFail 1 1 { amount := some 3000 } c3Store).2.accounts
      = [{ id := 1, userId := 1, currentValue := -3000 }] ∧
    c3Store.accounts = [{ id := 1, userId := 1, currentValue := -1000 }] ∧
    (-3000 : Int) ≠ -1000 + (3000 - 1000) :=
  ⟨by decide, by decide, by decide⟩

/-- C3 amended: for every successful update of a stored transaction's amount
from A to B, each account's balance changes by the difference of the
transaction's signed effects on it, new image minus old image - that is
B - A for Income on an unchanged account, -(B - A) for Expense, and for
Transfer -(B - A) on the primary account and B - A on the transfer target;
when the account reference also changes, this removes the negated old effect
from the old account and applies the new effect to the new account, and every
account referenced by neither image is unchanged. -/
theorem update_amount_delta (fails : Nat → Bool) (tid u : Nat)
    (upd : UpdateTransactionData) (st : Store) (tx : Txn) (res : Option Txn)
    (s' : Store) (B : Int)
    (hf : TransactionModel.findById tid u st = some tx)
    (hB : upd.amount = some B)
    (h : TransactionModel.update fails tid u upd st = (.ok res, s')) :
    s'.accounts = st.accounts.map (fun a =>
      { a with currentValue := a.currentValue
          - effectSumOn a.id (effectsOf tx)
          + effectSumOn a.id (effectsOf (TransactionModel.mergeTxn tx upd)) }) ∧
    (TransactionModel.mergeTxn tx upd).amount = B :=
  ⟨(update_ok_accounts hf (emptyUpdate_false_of_amount hB) h).2,
    by simp [TransactionModel.mergeTxn, hB]⟩

/-- Witness for C3 amended: the amount update 10.00 to 30.00 on the Expense of
`c3Store` changes each account by the difference of the signed effects. -/
theorem update_amount_delta_witness :
    (TransactionModel.update noFail 1 1 { amount := some 3000 } c3Store).2.accounts
      = c3Store.accounts.map (fun a =>
        { a with currentValue := a.currentValue
            - effectSumOn a.id (effectsOf c3Txn)
            + effectSumOn a.id (effectsOf (TransactionModel.mergeTxn c3Txn
              { amount := some 3000 })) }) :=
  (update_amount_delta noFail 1 1 { amount := some 3000 } c3Store c3Txn
    (some (TransactionModel.mergeTxn c3Txn { amount := some 3000 }))
    (TransactionModel.update noFail 1 1 { amount := some 3000 } c3Store).2 3000
    (by decide) rfl (by decide)).1

/-- Counterexample for C4: on the stored Transfer of `c4Store` (account 1 to
account 2), an update supplying transferAccountId = 1 produces a merged
transaction with accountRef = transferAccountRef = 1, violating the
referential validator's distinctness constraint, yet the update succeeds and
persists the merged row instead of failing. -/
theorem update_merged_validation_counterexample :
    (TransactionModel.update noFail 1 1 { transferAccountId := some 1 } c4Store).1
      = .ok (some (TransactionModel.mergeTxn c4Txn { transferAccountId := some 1 })) ∧
    (TransactionModel.mergeTxn c4Txn { transferAccountId := some 1 }).accountId
      = (TransactionModel.mergeTxn c4Txn { transferAccountId := some 1 }).transferAccountId ∧
    (TransactionModel.update noFail 1 1 { transferAccountId := some 1 } c4Store).2.transactions
      = [TransactionModel.mergeTxn c4Txn { transferAccountId := some 1 }] :=
  ⟨by decide, by decide, by decide⟩

/-- C4 amended: updateTransaction validates only the supplied references
before any mutation persists - a supplied accountId or transferAccountId must
resolve for the acting user, and a supplied categoryId must resolve and match
the merged transaction kind - each failing check aborting the unit with
nothing persisted; constraints involving fields retained from the stored
image, such as accountRef distinct from transferAccountRef or the per-kind
presence and absence rules, are not re-checked against the merged state. -/
theorem update_validates_supplied_references (fails : Nat → Bool) (tid u : Nat)
    (upd : UpdateTransactionData) (st : Store) (tx : Txn) (a b c : Nat)
    (cat : Category)
    (hf : TransactionModel.findById tid u st = some tx) :
    (upd.accountId = some a → accountExists st a u = false →
      TransactionModel.update fails tid u upd st = (.err .accountNotFound, st)) ∧
    (TransactionModel.checkAccountRef st u upd.accountId .accountNotFound = .ok () →
      upd.transferAccountId = some b → accountExists st b u = false →
      TransactionModel.update fails tid u upd st = (.err .transferAccountNotFound, st)) ∧
    (TransactionModel.checkAccountRef st u upd.accountId .accountNotFound = .ok () →
      TransactionModel.checkAccountRef st u upd.transferAccountId
        .transferAccountNotFound = .ok () →
      upd.categoryId = some c → findCategory st c u = none →
      TransactionModel.update fails tid u upd st = (.err .categoryNotFound, st)) ∧
    (TransactionModel.checkAccountRef st u upd.accountId .accountNotFound = .ok () →
      TransactionModel.checkAccountRef st u upd.transferAccountId
        .transferAccountNotFound = .ok () →
      upd.categoryId = some c → findCategory st c u = some cat →
      cat.accountType ≠ upd.transactionType.getD tx.transactionType →
      TransactionModel.update fails tid u upd st = (.err .categoryKindMismatch, st)) := by
  refine ⟨?_, ?_, ?_, ?_⟩
  · intro ha hex
    unfold TransactionModel.update TransactionModel.updateGo
    simp only [hf]
    rw [ha]
    simp [TransactionModel.checkAccountRef, hex, bindError, atomically]
  · intro hok1 hb hex
    unfold TransactionModel.update TransactionModel.updateGo
    simp only [hf]
    rw [hok1, bindOk, hb]
    simp [TransactionModel.checkAccountRef, hex, bindError, atomically]
  · intro hok1 hok2 hc hfc
    unfold TransactionModel.update TransactionModel.updateGo
    simp only [hf]
    rw [hok1, bindOk, hok2, bindOk, hc]
    simp [TransactionModel.checkCategoryRef, hfc, bindError, atomically]
  · intro hok1 hok2 hc hfc hkind
    unfold TransactionModel.update TransactionModel.updateGo
    simp only [hf]
    rw [hok1, bindOk, hok2, bindOk, hc]
    simp [TransactionModel.checkCategoryRef, hfc, hkind, bindError, atomically]

/-- Witness for C4 amended: updating the Expense of `c3Store` to kind Income
while keeping categoryId = 2 of kind Expense fails with the category-kind
mismatch and persists nothing. -/
theorem update_validates_supplied_references_witness :
    TransactionModel.update noFail 1 1
      { transactionType := some TxKind.I, categoryId := some 2 } c3Store
      = (.err .categoryKindMismatch, c3Store) :=
  (update_validates_supplied_references noFail 1 1
    { transactionType := some TxKind.I, categoryId := some 2 } c3Store c3Txn 1 1 2
    { id := 2, userId := 1, accountType := TxKind.E } (by decide)).2.2.2
    rfl rfl rfl (by decide) (by decide)

/-- Counterexample for C5: in `c5Store` credit card 1 is referenced by a
stored transaction as its account reference, yet the standalone model file's
CreditCardModel.delete (part_001) removes the card unconditionally - it
performs no referenced-transaction check and its interface cannot report an
entity-in-use failure. -/
theorem entity_in_use_counterexample :
    c5Store.transactions.any (fun t =>
      t.accountId == some 1 || t.transferAccountId == some 1) = true ∧
    (Part001.CreditCardModel.delete 1 1 c5Store).creditCards = [] :=
  ⟨by decide, by decide⟩

/-- C5 amended: the controller-embedded models enforce the guard - deleting an
account or credit card referenced by any stored transaction as accountRef or
transferAccountRef, or a category referenced by one of the acting user's
transactions as categoryRef, fails with entityInUse and deletes nothing, and
once no such reference exists the deletion proceeds, reporting whether an
owned row was removed - while the standalone legacy CreditCardModel (part_001)
and CategoryModel (part_002) delete without any reference check. -/
theorem entity_in_use_guards (st : Store) (eid u : Nat) :
    (st.transactions.any (fun t =>
        t.accountId == some eid || t.transferAccountId == some eid) = true →
      AccountModel.delete eid u st = (.err .entityInUse, st) ∧
      CreditCardModel.delete eid u st = (.err .entityInUse, st)) ∧
    (st.transactions.any (fun t =>
        t.categoryId == some eid && t.userId == u) = true →
      CategoryModel.delete eid u st = (.err .entityInUse, st)) ∧
    (st.transactions.any (fun t =>
        t.accountId == some eid || t.transferAccountId == some eid) = false →
      (AccountModel.delete eid u st).1
        = .ok (decide ((st.accounts.filter (fun a =>
            !(a.id == eid && a.userId == u))).length < st.accounts.length)) ∧
      (CreditCardModel.delete eid u st).1
        = .ok (decide ((st.creditCards.filter (fun cc =>
            !(cc.id == eid && cc.userId == u))).length < st.creditCards.length))) ∧
    (st.transactions.any (fun t =>
        t.categoryId == some eid && t.userId == u) = false →
      (CategoryModel.delete eid u st).1
        = .ok (decide ((st.categories.filter (fun ca =>
            !(ca.id == eid && ca.userId == u))).length < st.categories.length))) := by
  refine ⟨?_, ?_, ?_, ?_⟩
  · intro hany
    have hpos := countP_pos_of_any hany
    constructor <;> simp [AccountModel.delete, CreditCardModel.delete, hpos]
  · intro hany
    have hpos := countP_pos_of_any hany
    simp [CategoryModel.delete, hpos]
  · intro hany
    have hz := countP_eq_zero_of_any_false hany
    constructor <;> simp [AccountModel.delete, CreditCardModel.delete, hz]
  · intro hany
    have hz := countP_eq_zero_of_any_false hany
    simp [CategoryModel.delete, hz]

/-- Witness for C5 amended: deleting the referenced credit card 1 (and account
id 1) of `c5Store` fails with entityInUse and changes nothing, while deleting
the unreferenced account 2 and category 2 of `wStore` succeeds. -/
theorem entity_in_use_guards_witness :
    AccountModel.delete 1 1 c5Store = (.err .entityInUse, c5Store) ∧
    CreditCardModel.delete 1 1 c5Store = (.err .entityInUse, c5Store) ∧
    (AccountModel.delete 2 1 wStore).1 = .ok true ∧
    (CategoryModel.delete 2 1 wStore).1 = .ok true := by
  have h1 := (entity_in_use_guards c5Store 1 1).1 (by decide)
  have h2 := (entity_in_use_guards wStore 2 1).2.2.1 (by decide)
  have h3 := (entity_in_use_guards wStore 2 1).2.2.2 (by decide)
  exact ⟨h1.1, h1.2, by rw [h2.1]; rfl, by rw [h3]; rfl⟩

/-- Counterexample for C6: category 1 and credit card 1 of `c6Store` are owned
by user 2, yet the standalone model files' lookups (part_002 CategoryModel and
part_001 CreditCardModel) take no acting-user parameter at all and return the
other user's record to any caller - including a request made on behalf of
user 1 - instead of the not-found result the claim requires. -/
theorem ownership_scoped_reads_counterexample :
    Part002.CategoryModel.findById 1 c6Store
      = some { id := 1, userId := 2, accountType := TxKind.E } ∧
    Part001.CreditCardModel.findById 1 c6Store
      = some { id := 1, userId := 2, currentValue := 0 } ∧
    (2 : Nat) ≠ 1 :=
  ⟨by decide, by decide, by decide⟩

/-- C6 amended: the controller-embedded lookups are ownership-scoped - a read
by id on behalf of a user returns a record only when that record's owner is
the acting user, so a cross-user id yields the not-found result none - while
the legacy standalone CreditCardModel (part_001) and CategoryModel (part_002)
findById are keyed by id alone and can return another user's record. -/
theorem ownership_scoped_reads (st : Store) (rid u : Nat) :
    (∀ a, AccountModel.findById rid u st = some a → a.userId = u) ∧
    (∀ ca, CategoryModel.findById rid u st = some ca → ca.userId = u) ∧
    (∀ cc, CreditCardModel.findById rid u st = some cc → cc.userId = u) ∧
    (∀ t, TransactionModel.findById rid u st = some t → t.userId = u) := by
  refine ⟨?_, ?_, ?_, ?_⟩
  · intro x hx
    unfold AccountModel.findById at hx
    have hp := List.find?_some hx
    simp only [Bool.and_eq_true] at hp
    exact eq_of_beq hp.2
  · intro x hx
    unfold CategoryModel.findById at hx
    have hp := List.find?_some hx
    simp only [Bool.and_eq_true] at hp
    exact eq_of_beq hp.2
  · intro x hx
    unfold CreditCardModel.findById at hx
    have hp := List.find?_some hx
    simp only [Bool.and_eq_true] at hp
    exact eq_of_beq hp.2
  · intro x hx
    unfold TransactionModel.findById at hx
    have hp := List.find?_some hx
    simp only [Bool.and_eq_true] at hp
    exact eq_of_beq hp.2

/-- Witness for C6 amended: the scoped account lookup on `wStore` returns a
record owned by the acting user. -/
theorem ownership_scoped_reads_witness :
    AccountModel.findById 1 1 wStore
      = some { id := 1, userId := 1, currentValue := 0 } ∧
    ({ id := 1, userId := 1, currentValue := 0 } : Account).userId = 1 :=
  ⟨by decide, (ownership_scoped_reads wStore 1 1).1 _ (by decide)⟩

end BitMoney
